import Mathlib

/-!
Verification development for the ESP32_Modular_System repository.

Shallow embedding of the configuration engine (`src/ConfigManager.cpp`),
the module lifecycle manager (`src/ModuleManager.cpp`) and the UUID
generator (`include/FreeRTOSTypes.h`).  JSON documents are modelled as an
inductive value type with insertion-ordered association lists for objects
(mirroring ArduinoJson member ordering); the flash filesystem is modelled
as an association list from path to file data, with explicit failure sets
for `open(path, "r")`, `open(path, "w")` and `print` (a zero-byte write).
-/

/-- JSON values as stored by ArduinoJson documents.  Objects keep their
members in insertion order, as ArduinoJson does. -/
inductive JVal where
  | jNull : JVal
  | jBool (b : Bool) : JVal
  | jInt (n : Int) : JVal
  | jStr (s : String) : JVal
  | jObj (fields : List (String × JVal)) : JVal
  | jArr (elems : List JVal) : JVal

namespace JVal

/-- ArduinoJson `is<String>()`. -/
def isStr : JVal → Bool
  | jStr _ => true
  | _ => false

/-- ArduinoJson `is<int>()` (booleans and floats are not ints). -/
def isInt : JVal → Bool
  | jInt _ => true
  | _ => false

/-- ArduinoJson `is<bool>()`. -/
def isBool : JVal → Bool
  | jBool _ => true
  | _ => false

/-- ArduinoJson `is<JsonObject>()`. -/
def isObj : JVal → Bool
  | jObj _ => true
  | _ => false

/-- ArduinoJson `as<String>()`: strings unchanged, numbers and booleans
converted to text, everything else degenerates. -/
def asString : JVal → String
  | jStr s => s
  | jBool true => "true"
  | jBool false => "false"
  | jInt n => toString n
  | _ => "null"

/-- Member lookup on an object value: `none` when the value is not an
object or the key is absent (ArduinoJson `containsKey` false). -/
def getKey : JVal → String → Option JVal
  | jObj fields, k => fields.lookup k
  | _, _ => none

/-- ArduinoJson `containsKey`. -/
def hasKey (v : JVal) (k : String) : Bool :=
  (v.getKey k).isSome

/-- The member list of an object, `[]` for any other value (ArduinoJson
null `JsonObject`). -/
def objFields : JVal → List (String × JVal)
  | jObj fields => fields
  | _ => []

end JVal

/-- Replace the first binding of `k` in place, or append a new binding:
ArduinoJson subscript assignment `obj[k] = v`. -/
def objSet : List (String × JVal) → String → JVal → List (String × JVal)
  | [], k, v => [(k, v)]
  | (k', v') :: rest, k, v =>
    if k' = k then (k, v) :: rest else (k', v') :: objSet rest k v

/-- Assign `doc[k] := v` at the top level of a document, materialising an
object when the document is not one (ArduinoJson root promotion). -/
def docSet (doc : JVal) (k : String) (v : JVal) : JVal :=
  JVal.jObj (objSet doc.objFields k v)

/-- `strcmp`-style three-way comparison on character lists. -/
def charCmp : List Char → List Char → Ordering
  | [], [] => Ordering.eq
  | [], _ :: _ => Ordering.lt
  | _ :: _, [] => Ordering.gt
  | a :: as, b :: bs =>
    if a < b then Ordering.lt
    else if b < a then Ordering.gt
    else charCmp as bs

/-- Arduino `String` `operator<=` (lexicographic, byte-wise). -/
def strLe (a b : String) : Bool :=
  charCmp a.data b.data ≠ Ordering.gt

/-- Leading-pattern test on character lists. -/
def leadsWith : List Char → List Char → Bool
  | [], _ => true
  | _ :: _, [] => false
  | p :: ps, c :: cs => p = c && leadsWith ps cs

/-- Substring-occurrence test on character lists (C `strstr`). -/
def charsHave (pat : List Char) : List Char → Bool
  | [] => leadsWith pat []
  | c :: cs => leadsWith pat (c :: cs) || charsHave pat cs

/-- `ConfigManager::splitPath`: split a dotted path on `'.'`, keeping
interior empty parts but dropping a trailing empty part. -/
def splitPathChars : List Char → List Char → List String
  | [], acc => if acc.isEmpty then [] else [String.mk acc.reverse]
  | c :: rest, acc =>
    if c = '.' then String.mk acc.reverse :: splitPathChars rest []
    else splitPathChars rest (c :: acc)

/-- `ConfigManager::splitPath` on a `String` path. -/
def splitPath (path : String) : List String :=
  splitPathChars path.data []

/-- `ConfigManager::getNestedValueConst`: walk the document along the path
parts, failing on a missing key or a non-object step. -/
def getNestedParts : JVal → List String → Option JVal
  | doc, [] => some doc
  | doc, part :: rest =>
    match doc with
    | JVal.jObj fields =>
      match fields.lookup part with
      | some v => getNestedParts v rest
      | none => none
    | _ => none

/-- Nested lookup along a dotted path. -/
def getNestedValue (doc : JVal) (path : String) : Option JVal :=
  getNestedParts doc (splitPath path)

/-- A nested value counts as null when absent or explicitly null
(`JsonVariantConst::isNull`). -/
def nestedIsNull (doc : JVal) (path : String) : Bool :=
  match getNestedValue doc path with
  | none => true
  | some JVal.jNull => true
  | some _ => false

/-- CONFIG_VERSION_CURRENT from `ConfigManager.h`. -/
def CONFIG_VERSION_CURRENT : String := "2.0.0"

/-- CONFIG_VERSION_MIN_SUPPORTED from `ConfigManager.h`. -/
def CONFIG_VERSION_MIN_SUPPORTED : String := "1.0.0"

/-- `ConfigManager::getConfigVersion`: default "1.0.0" when the document
has no top-level `version` key. -/
def getConfigVersion (doc : JVal) : String :=
  match doc.getKey "version" with
  | none => "1.0.0"
  | some v => v.asString

/-- `ConfigManager::setConfigVersion`. -/
def setConfigVersion (doc : JVal) (version : String) : JVal :=
  docSet doc "version" (JVal.jStr version)

/-- `ConfigManager::isVersionCompatible`: lexicographic string comparison
against the supported range. -/
def isVersionCompatible (version : String) : Bool :=
  strLe CONFIG_VERSION_MIN_SUPPORTED version && strLe version CONFIG_VERSION_CURRENT

/-- `ConfigManager::migrateFrom1_0_0_to1_1_0`: add `backup_settings` when
missing.  Always reports success. -/
def migrateFrom1_0_0_to1_1_0 (doc : JVal) : JVal :=
  if doc.hasKey "backup_settings" then doc
  else
    docSet doc "backup_settings" (JVal.jObj
      [("auto_backup", JVal.jBool true),
       ("backup_count", JVal.jInt 10),
       ("backup_interval_hours", JVal.jInt 24)])

/-- `ConfigManager::migrateFrom1_1_0_to1_2_0`: add `monitoring` when
missing.  Always reports success. -/
def migrateFrom1_1_0_to1_2_0 (doc : JVal) : JVal :=
  if doc.hasKey "monitoring" then doc
  else
    docSet doc "monitoring" (JVal.jObj
      [("enabled", JVal.jBool true),
       ("health_check_interval", JVal.jInt 30000),
       ("performance_tracking", JVal.jBool true)])

/-- The `watchdog` defaults added to every module by the 2.0.0 step. -/
def watchdogDefaults : JVal :=
  JVal.jObj
    [("enabled", JVal.jBool true),
     ("timeout_ms", JVal.jInt 5000),
     ("auto_restart", JVal.jBool true)]

/-- `ConfigManager::migrateFrom1_2_0_to2_0_0`: add a `watchdog` block to
every module missing one (assignment through a null `JsonObject` is a
no-op for non-object module entries), then a system-wide
`system.watchdog` block when `system` is missing. -/
def migrateFrom1_2_0_to2_0_0 (doc : JVal) : JVal :=
  let doc1 :=
    match doc.getKey "modules" with
    | some (JVal.jObj mods) =>
      docSet doc "modules" (JVal.jObj (mods.map (fun kv =>
        match kv.2 with
        | JVal.jObj f =>
          if (JVal.jObj f).hasKey "watchdog" then kv
          else (kv.1, JVal.jObj (objSet f "watchdog" watchdogDefaults))
        | _ => kv)))
    | some _ => doc
    | none => doc
  if doc1.hasKey "system" then doc1
  else
    docSet doc1 "system" (JVal.jObj
      [("watchdog", JVal.jObj
        [("enabled", JVal.jBool true),
         ("timeout_ms", JVal.jInt 10000),
         ("reset_on_timeout", JVal.jBool true)])])

/-- `ConfigManager::migrateConfiguration`: run the fixed chain of steps
guarded by lexicographic version comparisons, then rewrite the `version`
string last.  Every step in the source returns `true`, so the whole
migration always reports success. -/
def migrateConfiguration (doc : JVal) (targetVersion : String) : JVal × Bool :=
  let v0 := getConfigVersion doc
  if v0 = targetVersion then (doc, true)
  else
    let s1 := if v0 = "1.0.0" && strLe "1.1.0" targetVersion then
        (migrateFrom1_0_0_to1_1_0 doc, "1.1.0") else (doc, v0)
    let s2 := if s1.2 = "1.1.0" && strLe "1.2.0" targetVersion then
        (migrateFrom1_1_0_to1_2_0 s1.1, "1.2.0") else s1
    let s3 := if s2.2 = "1.2.0" && strLe "2.0.0" targetVersion then
        (migrateFrom1_2_0_to2_0_0 s2.1, "2.0.0") else s2
    (setConfigVersion s3.1 targetVersion, true)

/-- The validation-result taxonomy from `ConfigManager.h`. -/
inductive ConfigValidationResult where
  | CONFIG_VALID
  | CONFIG_INVALID_VERSION
  | CONFIG_INVALID_SCHEMA
  | CONFIG_MISSING_REQUIRED
  | CONFIG_INVALID_VALUE
  | CONFIG_FILE_NOT_FOUND
  | CONFIG_PARSE_ERROR
deriving DecidableEq, Repr

export ConfigValidationResult (CONFIG_VALID CONFIG_INVALID_VERSION
  CONFIG_INVALID_SCHEMA CONFIG_MISSING_REQUIRED CONFIG_INVALID_VALUE)

/-- `ConfigValidationRule` from `ConfigManager.h` (the default/min/max
members are unused by the simplified rules and are omitted). -/
structure ConfigValidationRule where
  path : String
  type : String
  required : Bool
  enumValues : List String
deriving DecidableEq, Repr

/-- Key present with a string value (`containsKey` plus `is<String>`). -/
def keyIsStr (v : JVal) (k : String) : Bool :=
  match v.getKey k with
  | some w => w.isStr
  | none => false

/-- Key present with an int value (`containsKey` plus `is<int>`). -/
def keyIsInt (v : JVal) (k : String) : Bool :=
  match v.getKey k with
  | some w => w.isInt
  | none => false

/-- Per-module shape check of `ConfigManager::validateSchema`; a
non-object module entry yields a null `JsonObjectConst`, on which every
`containsKey` is false. -/
def moduleShapeOk (mc : JVal) : Bool :=
  keyIsStr mc "state" && keyIsInt mc "priority" && keyIsStr mc "version"

/-- `ConfigManager::validateSchema`. -/
def validateSchema (doc : JVal) : Bool :=
  keyIsStr doc "version" &&
    match doc.getKey "modules" with
    | some (JVal.jObj mods) => mods.all (fun kv => moduleShapeOk kv.2)
    | _ => false

/-- `ConfigManager::validateRequiredFields`. -/
def validateRequiredFields (rules : List ConfigValidationRule) (doc : JVal) : Bool :=
  rules.all (fun r => !r.required || !(nestedIsNull doc r.path))

/-- One rule of `ConfigManager::validateValueRanges`: null values are
skipped; then type checks, then the enum check for string rules. -/
def valueRangeOk (doc : JVal) (r : ConfigValidationRule) : Bool :=
  match getNestedValue doc r.path with
  | none => true
  | some JVal.jNull => true
  | some v =>
    (!(r.type = "int") || v.isInt) &&
    (!(r.type = "bool") || v.isBool) &&
    (!(r.type = "string") || v.isStr) &&
    (!(r.type = "string" && !r.enumValues.isEmpty) || r.enumValues.contains v.asString)

/-- `ConfigManager::validateValueRanges`. -/
def validateValueRanges (rules : List ConfigValidationRule) (doc : JVal) : Bool :=
  rules.all (fun r => valueRangeOk doc r)

/-- `ConfigManager::validateConfiguration(doc)`: the four check groups in
their fixed order, stopping at the first failure. -/
def validateConfiguration (rules : List ConfigValidationRule) (doc : JVal) :
    ConfigValidationResult :=
  if !(isVersionCompatible (getConfigVersion doc)) then CONFIG_INVALID_VERSION
  else if !(validateSchema doc) then CONFIG_INVALID_SCHEMA
  else if !(validateRequiredFields rules doc) then CONFIG_MISSING_REQUIRED
  else if !(validateValueRanges rules doc) then CONFIG_INVALID_VALUE
  else CONFIG_VALID

/-- The rule table built by `ConfigManager::addDefaultValidationRules`. -/
def defaultValidationRules : List ConfigValidationRule :=
  let states := ["enabled", "disabled", "error"]
  [⟨"version", "string", true, []⟩,
   ⟨"modules.CONTROL_FS.priority", "int", true, []⟩,
   ⟨"modules.CONTROL_WIFI.priority", "int", true, []⟩,
   ⟨"modules.CONTROL_LCD.priority", "int", true, []⟩,
   ⟨"modules.CONTROL_SERIAL.priority", "int", true, []⟩,
   ⟨"modules.CONTROL_WEB.priority", "int", true, []⟩,
   ⟨"modules.CONTROL_RADAR.priority", "int", true, []⟩,
   ⟨"modules.CONTROL_FS.state", "string", true, states⟩,
   ⟨"modules.CONTROL_WIFI.state", "string", true, states⟩,
   ⟨"modules.CONTROL_LCD.state", "string", true, states⟩,
   ⟨"modules.CONTROL_SERIAL.state", "string", true, states⟩,
   ⟨"modules.CONTROL_WEB.state", "string", true, states⟩,
   ⟨"modules.CONTROL_RADAR.state", "string", true, states⟩]

/-- Contents of one file of the modelled flash filesystem: a parseable
JSON document or raw text that `deserializeJson` rejects. -/
inductive FileData where
  | jsonData (v : JVal) : FileData
  | textData (s : String) : FileData

/-- Generic in-place association update (replace first binding or
append), the behaviour of writing a path on the flash filesystem. -/
def assocSet {β : Type} : List (String × β) → String → β → List (String × β)
  | [], k, v => [(k, v)]
  | (k', v') :: rest, k, v =>
    if k' = k then (k, v) :: rest else (k', v') :: assocSet rest k v

/-- The flash filesystem: an association list from path to file data in
directory-enumeration order, plus explicit failure environments for
`open(path, "r")`, `open(path, "w")` and a failing `print` (0 bytes
written). -/
structure FS where
  files : List (String × FileData)
  openRFail : List String
  openWFail : List String
  writeFail : List String

/-- Current content of a path (`none`: the file does not exist). -/
def fsLookup (fs : FS) (path : String) : Option FileData :=
  fs.files.lookup path

/-- `ConfigManager::loadConfigFromFile`: missing file, open failure and
parse error all yield failure. -/
def loadConfigFromFile (fs : FS) (path : String) : Option JVal :=
  if (fsLookup fs path).isNone then none
  else if fs.openRFail.contains path then none
  else
    match fsLookup fs path with
    | some (FileData.jsonData v) => some v
    | _ => none

/-- `ConfigManager::saveConfigToFile`: `open(path, "w")` truncates the
file on success, so a subsequent failing write (0 bytes) leaves a
truncated empty file behind; only an open failure leaves the prior file
untouched. -/
def saveConfigToFile (fs : FS) (path : String) (doc : JVal) : FS × Bool :=
  if fs.openWFail.contains path then (fs, false)
  else if fs.writeFail.contains path then
    ({fs with files := assocSet fs.files path (FileData.textData "")}, false)
  else
    ({fs with files := assocSet fs.files path (FileData.jsonData doc)}, true)

/-- The state of a `ConfigManager` instance.  `millisNow` models the
`millis()` clock read when a backup filename is generated. -/
structure ConfigManager where
  fs : FS
  configPath : String
  backupPath : String
  currentConfig : Option JVal
  currentVersion : String
  validationRules : List ConfigValidationRule
  millisNow : Nat

/-- `ConfigManager::isInitialized` (the filesystem pointer is always
present in the model, so only `currentConfig` matters). -/
def isInitialized (cm : ConfigManager) : Bool :=
  cm.currentConfig.isSome

/-- `ConfigManager::loadConfiguration(path)`: parse, validate, migrate;
the in-memory document and version are replaced only at the very end. -/
def loadConfiguration (cm : ConfigManager) (path : String) : ConfigManager × Bool :=
  if !(isInitialized cm) then (cm, false)
  else
    match loadConfigFromFile cm.fs path with
    | none => (cm, false)
    | some tempDoc =>
      if validateConfiguration cm.validationRules tempDoc ≠ CONFIG_VALID then (cm, false)
      else
        let m := if getConfigVersion tempDoc ≠ cm.currentVersion then
            migrateConfiguration tempDoc cm.currentVersion
          else (tempDoc, true)
        if !m.2 then (cm, false)
        else ({cm with currentConfig := some m.1,
                       currentVersion := getConfigVersion m.1}, true)

/-- `ConfigManager::generateBackupFilename`. -/
def generateBackupFilename (cm : ConfigManager) : String :=
  "backup_" ++ toString cm.millisNow ++ "_" ++ cm.currentVersion ++ ".json"

/-- The backup filename after the description suffix is spliced in
(`createBackup` drops the trailing ".json" and re-appends it). -/
def backupFileName (cm : ConfigManager) (description : String) : String :=
  let base := generateBackupFilename cm
  if description = "" then base
  else String.mk (base.data.take (base.data.length - 5)) ++ "_" ++ description ++ ".json"

/-- Full path of the backup file `createBackup` writes. -/
def backupFullPath (cm : ConfigManager) (description : String) : String :=
  cm.backupPath ++ "/" ++ backupFileName cm description

/-- The wrapper document written by `ConfigManager::createBackupInternal`. -/
def backupWrapper (cm : ConfigManager) (doc : JVal) : JVal :=
  JVal.jObj
    [("backup_info", JVal.jObj
      [("timestamp", JVal.jStr (toString cm.millisNow)),
       ("version", JVal.jStr (getConfigVersion doc)),
       ("description", JVal.jStr "Automatic backup")]),
     ("config", doc)]

/-- `ConfigManager::createBackupInternal`. -/
def createBackupInternal (cm : ConfigManager) (backupFile : String) (doc : JVal) :
    ConfigManager × Bool :=
  let r := saveConfigToFile cm.fs (cm.backupPath ++ "/" ++ backupFile) (backupWrapper cm doc)
  ({cm with fs := r.1}, r.2)

/-- `ConfigManager::createBackup`. -/
def createBackup (cm : ConfigManager) (description : String) : ConfigManager × Bool :=
  if !(isInitialized cm) then (cm, false)
  else createBackupInternal cm (backupFileName cm description) (cm.currentConfig.getD JVal.jNull)

/-- `ConfigManager::saveConfiguration(path)`: re-validate, attempt the
automatic backup (its result is discarded by the source), then write the
configuration file. -/
def saveConfiguration (cm : ConfigManager) (path : String) : ConfigManager × Bool :=
  if !(isInitialized cm) then (cm, false)
  else if validateConfiguration cm.validationRules (cm.currentConfig.getD JVal.jNull)
      ≠ CONFIG_VALID then (cm, false)
  else
    let b := createBackup cm "auto_backup_before_save"
    let r := saveConfigToFile b.1.fs path (cm.currentConfig.getD JVal.jNull)
    ({b.1 with fs := r.1}, r.2)

/-- `ConfigBackupInfo` from `ConfigManager.h`. -/
structure ConfigBackupInfo where
  filename : String
  timestamp : String
  version : String
  size : Nat
  valid : Bool
deriving Repr, DecidableEq

mutual

/-- Abstract size of a stored JSON value (`File::size()` of its
serialisation is not byte-modelled; this structural weight stands in). -/
def jvalWeight : JVal → Nat
  | JVal.jNull => 1
  | JVal.jBool _ => 1
  | JVal.jInt _ => 1
  | JVal.jStr s => 1 + s.length
  | JVal.jObj fields => 1 + fieldsWeight fields
  | JVal.jArr elems => 1 + elemsWeight elems

/-- Weight of an object member list. -/
def fieldsWeight : List (String × JVal) → Nat
  | [] => 0
  | (k, v) :: rest => k.length + jvalWeight v + fieldsWeight rest

/-- Weight of an array element list. -/
def elemsWeight : List JVal → Nat
  | [] => 0
  | v :: rest => jvalWeight v + elemsWeight rest

end

/-- Abstract size of a file (`File::size()`; exact byte counts are not
modelled, only that the field is filled from the file). -/
def fileDataSize : FileData → Nat
  | FileData.jsonData v => jvalWeight v
  | FileData.textData s => s.length

/-- The name of a file inside directory `dir`, when its path lies there. -/
def fileNameIn (dir p : String) : Option String :=
  if leadsWith (dir ++ "/").data p.data then
    some (String.mk (p.data.drop (dir ++ "/").data.length))
  else none

/-- The filter of `ConfigManager::listBackups`: not hidden, and ".json"
occurs in the name (`strstr`). -/
def isListedBackupName (name : String) : Bool :=
  (match name.data with
   | [] => true
   | c :: _ => c ≠ '.') && charsHave ".json".data name.data

/-- ArduinoJson `variant | "default"`: the string value when the variant
is a string, the default otherwise. -/
def strOr (o : Option JVal) (dflt : String) : String :=
  match o with
  | some (JVal.jStr s) => s
  | _ => dflt

/-- One record of `ConfigManager::listBackups`: `valid` is set to true
unconditionally before the metadata is read, and is never cleared; the
metadata read re-opens the file at its full path. -/
def mkBackupInfo (fs : FS) (p name : String) (d : FileData) : ConfigBackupInfo :=
  let base : ConfigBackupInfo :=
    { filename := name, timestamp := "", version := "", size := fileDataSize d, valid := true }
  match loadConfigFromFile fs p with
  | none => base
  | some doc =>
    match doc.getKey "backup_info" with
    | none => base
    | some bi =>
      { base with timestamp := strOr (bi.getKey "timestamp") "unknown",
                  version := strOr (bi.getKey "version") "unknown" }

/-- The record produced for one directory entry, `none` when the entry is
filtered out. -/
def backupEntry (fs : FS) (bp p : String) (d : FileData) : Option ConfigBackupInfo :=
  match fileNameIn bp p with
  | none => none
  | some name =>
    if isListedBackupName name then some (mkBackupInfo fs p name d) else none

/-- The records for a list of directory entries. -/
def backupRecords (fs : FS) (bp : String) (entries : List (String × FileData)) :
    List ConfigBackupInfo :=
  entries.filterMap (fun pd => backupEntry fs bp pd.1 pd.2)

/-- `ConfigManager::listBackups`. -/
def listBackups (cm : ConfigManager) : List ConfigBackupInfo :=
  backupRecords cm.fs cm.backupPath cm.fs.files

/-- SysModule lifecycle states from `src/ModuleManager.h`. -/
inductive ModuleState where
  | MODULE_DISABLED
  | MODULE_ENABLED
  | MODULE_ERROR
  | MODULE_TESTING
deriving DecidableEq, Repr

/-- A registered module as the lifecycle manager sees it; `initOk` mocks
the result of the virtual `init()` call. -/
structure SysModule where
  name : String
  state : ModuleState
  priority : Int
  critical : Bool
  initOk : Bool
deriving DecidableEq, Repr

/-- `ModuleManager::registerModule`: reject duplicate names, append
otherwise. -/
def registerModule (ms : List SysModule) (m : SysModule) : List SysModule × Bool :=
  if ms.any (fun x => x.name == m.name) then (ms, false)
  else (ms ++ [m], true)

/-- `ModuleManager::unregisterModule`: remove the first module with the
given name. -/
def unregisterModule : List SysModule → String → List SysModule × Bool
  | [], _ => ([], false)
  | m :: rest, n =>
    if m.name = n then (rest, true)
    else
      let r := unregisterModule rest n
      (m :: r.1, r.2)

/-- `ModuleManager::sortModulesByPriority`: sort with the comparator
`a->getPriority() > b->getPriority()` (descending priority). -/
def sortModulesByPriority (ms : List SysModule) : List SysModule :=
  List.insertionSort (fun a b => b.priority ≤ a.priority) ms

/-- The loop body of `ModuleManager::initModules`: call `init()` on each
module in order, recording the call order; a failing module is marked
`MODULE_ERROR`; a failing critical module aborts immediately. -/
def initRun : List SysModule → List SysModule × List String × Bool
  | [] => ([], [], true)
  | m :: rest =>
    if m.initOk then
      let r := initRun rest
      (m :: r.1, m.name :: r.2.1, r.2.2)
    else
      let m' := { m with state := ModuleState.MODULE_ERROR }
      if m.critical then (m' :: rest, [m.name], false)
      else
        let r := initRun rest
        (m' :: r.1, m.name :: r.2.1, r.2.2)

/-- `ModuleManager::initModules`: sort, then run the init loop.  Returns
the final module collection, the init call order and the result flag. -/
def initModules (ms : List SysModule) : List SysModule × List String × Bool :=
  initRun (sortModulesByPriority ms)

/-- One hexadecimal digit, lowercase (the `%x` conversion). -/
def hexDigit (n : Nat) : Char :=
  if n < 10 then Char.ofNat (48 + n) else Char.ofNat (87 + n)

/-- Exactly `w` zero-padded lowercase hex digits of `n` (the `%0wlx`
conversion for values below `16 ^ w`). -/
def hexChars : Nat → Nat → List Char
  | 0, _ => []
  | w + 1, n => hexChars w (n / 16) ++ [hexDigit (n % 16)]

/-- Zero-padded lowercase hex string. -/
def toHex (n w : Nat) : String :=
  String.mk (hexChars w n)

/-- `genUUID4` from `FreeRTOSTypes.h`: four 32-bit draws of
`esp_random()` formatted with `"%08lx-%04lx-%04lx-%04lx-%08lx"`. -/
def genUUID4 (r1 r2 r3 r4 : Nat) : String :=
  toHex (r1 % 2 ^ 32) 8 ++ "-" ++ toHex (r2 % 2 ^ 16) 4 ++ "-" ++
    toHex ((r2 / 2 ^ 16) % 2 ^ 16) 4 ++ "-" ++ toHex (r3 % 2 ^ 16) 4 ++ "-" ++
    toHex (r4 % 2 ^ 32) 8

/-- A module as `initModules` would leave a failing `init()`: state
flipped to `MODULE_ERROR`, everything else untouched. -/
def errorizeIfFailed (m : SysModule) : SysModule :=
  if m.initOk then m else { m with state := ModuleState.MODULE_ERROR }

/-- One call against the lifecycle manager's module collection. -/
inductive MMOp where
  | reg (m : SysModule)
  | unreg (n : String)

/-- Apply one register/unregister call to the collection. -/
def applyOp (ms : List SysModule) : MMOp → List SysModule
  | MMOp.reg m => (registerModule ms m).1
  | MMOp.unreg n => (unregisterModule ms n).1

/-- Apply a call sequence to the collection. -/
def applyOps (ms : List SysModule) (ops : List MMOp) : List SysModule :=
  ops.foldl applyOp ms

/-- The listed name of a directory entry when `listBackups` keeps it. -/
def listedName (bp : String) (pd : String × FileData) : Option String :=
  match fileNameIn bp pd.1 with
  | some name => if isListedBackupName name then some name else none
  | none => none

/-- A minimal document that passes `validateConfiguration` with an empty
rule table. -/
def validDoc : JVal :=
  JVal.jObj [("version", JVal.jStr "2.0.0"), ("modules", JVal.jObj [])]

/-- A previously saved on-disk configuration. -/
def oldDoc : JVal := JVal.jObj [("version", JVal.jStr "1.2.3")]

/-- A filesystem with no files and no injected failures. -/
def emptyFS : FS := { files := [], openRFail := [], openWFail := [], writeFail := [] }

/-- A healthy initialised manager used by the concrete scenarios. -/
def cmBase : ConfigManager :=
  { fs := emptyFS,
    configPath := "/config/config.json",
    backupPath := "/config/backups",
    currentConfig := some validDoc,
    currentVersion := "2.0.0",
    validationRules := [],
    millisNow := 0 }

/-- The S3 migration scenario input document. -/
def s3Doc : JVal :=
  JVal.jObj [("version", JVal.jStr "1.0.0"),
    ("modules", JVal.jObj [("CONTROL_FS", JVal.jObj
      [("state", JVal.jStr "enabled"), ("priority", JVal.jInt 100),
       ("version", JVal.jStr "1.0.0")])])]

/-- A manager whose config file exists on disk but whose next write of it
fails after the truncating open succeeded. -/
def cmC1 : ConfigManager :=
  { cmBase with fs := { emptyFS with
      files := [("/config/config.json", FileData.jsonData oldDoc)],
      writeFail := ["/config/config.json"] } }

/-- A manager for which opening the automatic-backup file fails while the
configuration file itself is writable. -/
def cmC5 : ConfigManager :=
  { cmBase with fs := { emptyFS with
      openWFail := ["/config/backups/backup_0_2.0.0_auto_backup_before_save.json"] } }

/-- A manager whose backup directory holds one unparseable `.json` file. -/
def cmC8 : ConfigManager :=
  { cmBase with fs := { emptyFS with
      files := [("/config/backups/bad.json", FileData.textData "not json")] } }

/-- A module mock with a given name and priority that always inits. -/
def mkMod (n : String) (p : Int) : SysModule :=
  { name := n, state := ModuleState.MODULE_DISABLED, priority := p,
    critical := false, initOk := true }

/-- The S1 boot-order scenario: the six modules registered in ascending
priority order, so that only the sort can produce the expected order. -/
def s1Mods : List SysModule :=
  [mkMod "CONTROL_RADAR" 50, mkMod "CONTROL_WEB" 75, mkMod "CONTROL_SERIAL" 80,
   mkMod "CONTROL_LCD" 85, mkMod "CONTROL_WIFI" 90, mkMod "CONTROL_FS" 100]

/-- A critical module whose `init()` fails. -/
def badMod : SysModule :=
  { name := "CONTROL_FS", state := ModuleState.MODULE_DISABLED, priority := 100,
    critical := true, initOk := false }

/-! ## General lemmas shared by several results -/

theorem migrateConfiguration_snd (doc : JVal) (v : String) :
    (migrateConfiguration doc v).2 = true := by
  unfold migrateConfiguration
  by_cases h : getConfigVersion doc = v <;> simp [h]

theorem hexChars_length (w : Nat) : ∀ n, (hexChars w n).length = w := by
  induction w with
  | zero => intro n; rfl
  | succ w ih => intro n; simp [hexChars, ih]

/-! ## C3: validation is total, ordered, and first-failure coded -/

/-- C3: for every document, `validateConfiguration` returns exactly one
result code, determined by the fixed order version, schema, required,
ranges, stopping at the first failing group; it returns `CONFIG_VALID`
iff all four groups pass. -/
theorem validateConfiguration_first_failure (rules : List ConfigValidationRule) (doc : JVal) :
    (validateConfiguration rules doc = CONFIG_VALID ↔
      isVersionCompatible (getConfigVersion doc) = true ∧ validateSchema doc = true ∧
      validateRequiredFields rules doc = true ∧ validateValueRanges rules doc = true) ∧
    (isVersionCompatible (getConfigVersion doc) = false →
      validateConfiguration rules doc = CONFIG_INVALID_VERSION) ∧
    (isVersionCompatible (getConfigVersion doc) = true → validateSchema doc = false →
      validateConfiguration rules doc = CONFIG_INVALID_SCHEMA) ∧
    (isVersionCompatible (getConfigVersion doc) = true → validateSchema doc = true →
      validateRequiredFields rules doc = false →
      validateConfiguration rules doc = CONFIG_MISSING_REQUIRED) ∧
    (isVersionCompatible (getConfigVersion doc) = true → validateSchema doc = true →
      validateRequiredFields rules doc = true → validateValueRanges rules doc = false →
      validateConfiguration rules doc = CONFIG_INVALID_VALUE) := by
  unfold validateConfiguration
  cases h1 : isVersionCompatible (getConfigVersion doc) <;>
    cases h2 : validateSchema doc <;>
      cases h3 : validateRequiredFields rules doc <;>
        cases h4 : validateValueRanges rules doc <;>
          simp [h1, h2, h3, h4]

theorem validateConfiguration_first_failure_witness :
    validateConfiguration [] (JVal.jObj [("version", JVal.jStr "9.9.9")])
      = CONFIG_INVALID_VERSION :=
  (validateConfiguration_first_failure [] (JVal.jObj [("version", JVal.jStr "9.9.9")])).2.1
    (by decide)

/-! ## C4: the S3 migration scenario -/

/-- C4: migrating the S3 document to 2.0.0 succeeds; the result carries
version "2.0.0", contains `backup_settings`, `monitoring`,
`system.watchdog.timeout_ms = 10000` and
`modules.CONTROL_FS.watchdog.enabled = true`; the pre-existing module
fields are preserved unchanged; and the result is literally the three
chain steps followed by the final version rewrite. -/
theorem migrateConfiguration_s3 :
    (migrateConfiguration s3Doc "2.0.0").2 = true ∧
    getConfigVersion (migrateConfiguration s3Doc "2.0.0").1 = "2.0.0" ∧
    (migrateConfiguration s3Doc "2.0.0").1.hasKey "backup_settings" = true ∧
    (migrateConfiguration s3Doc "2.0.0").1.hasKey "monitoring" = true ∧
    getNestedValue (migrateConfiguration s3Doc "2.0.0").1 "system.watchdog.timeout_ms"
      = some (JVal.jInt 10000) ∧
    getNestedValue (migrateConfiguration s3Doc "2.0.0").1 "modules.CONTROL_FS.watchdog.enabled"
      = some (JVal.jBool true) ∧
    getNestedValue (migrateConfiguration s3Doc "2.0.0").1 "modules.CONTROL_FS.state"
      = some (JVal.jStr "enabled") ∧
    getNestedValue (migrateConfiguration s3Doc "2.0.0").1 "modules.CONTROL_FS.priority"
      = some (JVal.jInt 100) ∧
    getNestedValue (migrateConfiguration s3Doc "2.0.0").1 "modules.CONTROL_FS.version"
      = some (JVal.jStr "1.0.0") ∧
    (migrateConfiguration s3Doc "2.0.0").1 =
      setConfigVersion (migrateFrom1_2_0_to2_0_0 (migrateFrom1_1_0_to1_2_0
        (migrateFrom1_0_0_to1_1_0 s3Doc))) "2.0.0" :=
  ⟨rfl, rfl, rfl, rfl, rfl, rfl, rfl, rfl, rfl, rfl⟩

/-! ## C9: the shape of generated event UUIDs -/

/-- C9: every `genUUID4` output has exactly 32 characters in the shape
8-4-4-4-8 (112 bits of randomness), not the canonical 36-character
8-4-4-4-12 shape the specification claims; at the all-zero draws the
output is the 32-character string shown. -/
theorem genUUID4_not_canonical :
    genUUID4 0 0 0 0 = "00000000-0000-0000-0000-00000000" ∧
    (∀ r1 r2 r3 r4, (genUUID4 r1 r2 r3 r4).length = 32) := by
  have htoHex : ∀ n w, (toHex n w).length = w := fun n w => hexChars_length w n
  refine ⟨rfl, ?_⟩
  intro r1 r2 r3 r4
  unfold genUUID4
  simp only [String.length_append, htoHex]
  decide

/-! ## C10: documents without a version key -/

/-- C10: a document with no top-level `version` key reads as version
"1.0.0", which is always version-compatible, so validation rejects it at
the schema stage with `CONFIG_INVALID_SCHEMA` (never
`CONFIG_INVALID_VERSION`) for every rule table, and migration to 2.0.0
runs the full 1.0.0 chain on it. -/
theorem getConfigVersion_default_spec (doc : JVal) (h : doc.hasKey "version" = false) :
    getConfigVersion doc = "1.0.0" ∧
    isVersionCompatible (getConfigVersion doc) = true ∧
    (∀ rules, validateConfiguration rules doc = CONFIG_INVALID_SCHEMA) ∧
    migrateConfiguration doc "2.0.0" =
      (setConfigVersion (migrateFrom1_2_0_to2_0_0 (migrateFrom1_1_0_to1_2_0
        (migrateFrom1_0_0_to1_1_0 doc))) "2.0.0", true) := by
  have hnone : doc.getKey "version" = none := by
    unfold JVal.hasKey at h
    exact Option.not_isSome_iff_eq_none.mp (by simp [h])
  have hv : getConfigVersion doc = "1.0.0" := by
    unfold getConfigVersion
    rw [hnone]
  have hs : validateSchema doc = false := by
    unfold validateSchema keyIsStr
    rw [hnone]
    simp
  refine ⟨hv, ?_, ?_, ?_⟩
  · rw [hv]; decide
  · intro rules
    unfold validateConfiguration
    rw [hv, hs]
    simp [show isVersionCompatible "1.0.0" = true from by decide]
  · unfold migrateConfiguration
    rw [hv]
    simp [show (("1.0.0" : String) = "2.0.0") = False from by simp,
      show strLe "1.1.0" "2.0.0" = true from by decide,
      show strLe "1.2.0" "2.0.0" = true from by decide,
      show strLe "2.0.0" "2.0.0" = true from by decide]

theorem getConfigVersion_default_spec_witness :
    getConfigVersion (JVal.jObj []) = "1.0.0" ∧
    validateConfiguration defaultValidationRules (JVal.jObj []) = CONFIG_INVALID_SCHEMA :=
  ⟨(getConfigVersion_default_spec (JVal.jObj []) rfl).1,
   (getConfigVersion_default_spec (JVal.jObj []) rfl).2.2.1 defaultValidationRules⟩

/-! ## C2: failed loads leave the in-memory state untouched -/

/-- C2: whenever `loadConfiguration` returns false — for any reason —
the whole manager state (in particular `currentConfig` and
`currentVersion`) is unchanged; and when it returns true, the file was
parsed and the parsed document passed validation (migration, which in
the source can only report success, ran when the version differed). -/
theorem loadConfiguration_failure_keeps_state (cm : ConfigManager) (path : String) :
    ((loadConfiguration cm path).2 = false → (loadConfiguration cm path).1 = cm) ∧
    ((loadConfiguration cm path).2 = true →
      ∃ d, loadConfigFromFile cm.fs path = some d ∧
        validateConfiguration cm.validationRules d = CONFIG_VALID) := by
  unfold loadConfiguration
  cases hinit : isInitialized cm
  · simp
  · cases hload : loadConfigFromFile cm.fs path with
    | none => simp
    | some d =>
      by_cases hval : validateConfiguration cm.validationRules d = CONFIG_VALID
      · have hmig : ∀ v, (migrateConfiguration d v).2 = true := migrateConfiguration_snd d
        by_cases hver : getConfigVersion d ≠ cm.currentVersion
        · simp only [hval, hver, if_true, if_pos, ne_eq, not_true_eq_false,
            not_false_eq_true, ite_not]
          simp [hmig, hval]
        · simp [hval, hver]
      · simp [hval]

theorem loadConfiguration_failure_keeps_state_witness :
    (loadConfiguration cmBase "/missing").2 = false ∧
    (loadConfiguration cmBase "/missing").1 = cmBase :=
  ⟨rfl, (loadConfiguration_failure_keeps_state cmBase "/missing").1 rfl⟩

/-! ## C6: priority-ordered init with critical-abort semantics -/

theorem initRun_false_iff (ms : List SysModule) :
    (initRun ms).2.2 = false ↔ ∃ m ∈ ms, m.initOk = false ∧ m.critical = true := by
  induction ms with
  | nil => simp [initRun]
  | cons m rest ih =>
    unfold initRun
    by_cases h1 : m.initOk = true
    · simp [h1, ih]
    · have h1f : m.initOk = false := by simpa using h1
      by_cases h2 : m.critical = true
      · simp [h1f, h2]
      · have h2f : m.critical = false := by simpa using h2
        simp [h1f, h2f, ih]

theorem initRun_no_critical (ms : List SysModule)
    (h : ∀ m ∈ ms, m.initOk = false → m.critical = false) :
    initRun ms = (ms.map errorizeIfFailed, ms.map SysModule.name, true) := by
  induction ms with
  | nil => rfl
  | cons m rest ih =>
    have hrest := ih (fun x hx => h x (List.mem_cons_of_mem _ hx))
    unfold initRun
    by_cases h1 : m.initOk = true
    · simp [h1, hrest, errorizeIfFailed]
    · have h1f : m.initOk = false := by simpa using h1
      have h2 : m.critical = false := h m (List.mem_cons_self _ _) h1f
      simp [h1f, h2, hrest, errorizeIfFailed]

theorem initRun_abort (pre : List SysModule) (m : SysModule) (post : List SysModule)
    (hpre : ∀ x ∈ pre, x.initOk = false → x.critical = false)
    (hm1 : m.initOk = false) (hm2 : m.critical = true) :
    initRun (pre ++ m :: post) =
      (pre.map errorizeIfFailed ++
        ({ m with state := ModuleState.MODULE_ERROR } :: post),
       pre.map SysModule.name ++ [m.name], false) := by
  induction pre with
  | nil =>
    unfold initRun
    simp [hm1, hm2]
  | cons x rest ih =>
    have hr := ih (fun y hy => hpre y (List.mem_cons_of_mem _ hy))
    unfold initRun
    by_cases h1 : x.initOk = true
    · simp [h1, hr, errorizeIfFailed]
    · have h1f : x.initOk = false := by simpa using h1
      have h2 : x.critical = false := hpre x (List.mem_cons_self _ _) h1f
      simp [h1f, h2, hr, errorizeIfFailed]

/-- C6: `initModules` sorts, then inits in descending priority order —
on the S1 priorities the recorded call order is exactly FS, WIFI, LCD,
SERIAL, WEB, RADAR; failing modules are flipped to `MODULE_ERROR`; a
failing critical module aborts immediately with result false (and the
result is false exactly when some registered module is failing and
critical); with no failing critical module every module is visited and
the result is true. -/
theorem initModules_spec :
    (initModules s1Mods).2.1 = ["CONTROL_FS", "CONTROL_WIFI", "CONTROL_LCD",
      "CONTROL_SERIAL", "CONTROL_WEB", "CONTROL_RADAR"] ∧
    (∀ ms : List SysModule,
      List.Sorted (fun a b => b.priority ≤ a.priority) (sortModulesByPriority ms)) ∧
    (∀ ms : List SysModule, (initModules ms).2.2 = false ↔
      ∃ m ∈ ms, m.initOk = false ∧ m.critical = true) ∧
    (∀ ms : List SysModule, (∀ m ∈ ms, m.initOk = false → m.critical = false) →
      initModules ms = ((sortModulesByPriority ms).map errorizeIfFailed,
        (sortModulesByPriority ms).map SysModule.name, true)) ∧
    (∀ (pre : List SysModule) (m : SysModule) (post : List SysModule),
      (∀ x ∈ pre, x.initOk = false → x.critical = false) →
      m.initOk = false → m.critical = true →
      initRun (pre ++ m :: post) =
        (pre.map errorizeIfFailed ++
          ({ m with state := ModuleState.MODULE_ERROR } :: post),
         pre.map SysModule.name ++ [m.name], false)) := by
  refine ⟨by decide, ?_, ?_, ?_, initRun_abort⟩
  · intro ms
    haveI ht : IsTotal SysModule (fun a b => b.priority ≤ a.priority) :=
      ⟨fun a b => le_total b.priority a.priority⟩
    haveI htr : IsTrans SysModule (fun a b => b.priority ≤ a.priority) :=
      ⟨fun _ _ _ hab hbc => le_trans hbc hab⟩
    exact List.sorted_insertionSort _ ms
  · intro ms
    rw [show initModules ms = initRun (sortModulesByPriority ms) from rfl,
      initRun_false_iff]
    constructor
    · rintro ⟨m, hmem, hp⟩
      exact ⟨m, (List.perm_insertionSort _ ms).mem_iff.mp hmem, hp⟩
    · rintro ⟨m, hmem, hp⟩
      exact ⟨m, (List.perm_insertionSort _ ms).mem_iff.mpr hmem, hp⟩
  · intro ms h
    exact initRun_no_critical _
      (fun m hm => h m ((List.perm_insertionSort _ ms).mem_iff.mp hm))

theorem initModules_spec_witness :
    initRun [badMod] =
      ([{ badMod with state := ModuleState.MODULE_ERROR }], ["CONTROL_FS"], false) := by
  have h := initModules_spec.2.2.2.2 [] badMod [] (by simp) rfl rfl
  simpa using h

/-! ## C7: duplicate rejection and name uniqueness -/

theorem unregisterModule_sublist (ms : List SysModule) (n : String) :
    ((unregisterModule ms n).1).Sublist ms := by
  induction ms with
  | nil => simp [unregisterModule]
  | cons m rest ih =>
    unfold unregisterModule
    by_cases h : m.name = n
    · simp only [h, if_pos]
      exact List.sublist_cons_self _ _
    · simp only [h, if_neg, not_false_eq_true]
      exact List.Sublist.cons₂ _ ih

theorem registerModule_nodup (ms : List SysModule) (m : SysModule)
    (h : ((ms.map SysModule.name)).Nodup) :
    (((registerModule ms m).1).map SysModule.name).Nodup := by
  unfold registerModule
  by_cases hany : ms.any (fun x => x.name == m.name) = true
  · simpa [hany] using h
  · have hnotmem : m.name ∉ ms.map SysModule.name := by
      intro hmem
      rcases List.mem_map.mp hmem with ⟨x, hx, hname⟩
      have hb : (x.name == m.name) = true := by
        rw [hname]
        exact beq_self_eq_true _
      exact hany (List.any_eq_true.mpr ⟨x, hx, hb⟩)
    simp only [hany, if_neg, Bool.not_eq_true, List.map_append]
    simp [List.nodup_append, h, hnotmem]

/-- C7: registering a module whose name is already present fails and
leaves the collection unchanged; consequently after any sequence of
register/unregister calls starting from the empty collection, the
surviving module names are pairwise distinct (each appears exactly
once). -/
theorem moduleNames_unique :
    (∀ (ms : List SysModule) (m : SysModule),
      ms.any (fun x => x.name == m.name) = true → registerModule ms m = (ms, false)) ∧
    (∀ ops : List MMOp, (((applyOps [] ops)).map SysModule.name).Nodup) := by
  constructor
  · intro ms m h
    unfold registerModule
    rw [h]
    rfl
  · intro ops
    suffices h : ∀ start : List SysModule, ((start.map SysModule.name)).Nodup →
        (((applyOps start ops)).map SysModule.name).Nodup by
      exact h [] (by simp)
    induction ops with
    | nil => intro start h; simpa [applyOps] using h
    | cons op rest ih =>
      intro start h
      have hstep : (((applyOp start op)).map SysModule.name).Nodup := by
        cases op with
        | reg m => exact registerModule_nodup start m h
        | unreg n =>
          exact h.sublist ((unregisterModule_sublist start n).map SysModule.name)
      have : applyOps start (op :: rest) = applyOps (applyOp start op) rest := rfl
      rw [this]
      exact ih _ hstep

theorem moduleNames_unique_witness :
    registerModule [mkMod "CONTROL_FS" 100] (mkMod "CONTROL_FS" 50)
      = ([mkMod "CONTROL_FS" 100], false) :=
  moduleNames_unique.1 _ _ (by decide)

/-! ## Association-list lemmas for the filesystem model -/

theorem assocSet_lookup_self {β : Type} (l : List (String × β)) (k : String) (v : β) :
    (assocSet l k v).lookup k = some v := by
  induction l with
  | nil => simp [assocSet, List.lookup]
  | cons p rest ih =>
    rcases p with ⟨k', v'⟩
    unfold assocSet
    by_cases h : k' = k
    · subst h
      simp [List.lookup]
    · have hb : (k == k') = false := by simp [Ne.symm h]
      simp [h, List.lookup, hb, ih]

theorem assocSet_lookup_ne {β : Type} (l : List (String × β)) (k k' : String) (v : β)
    (h : k' ≠ k) : (assocSet l k v).lookup k' = l.lookup k' := by
  have hb : (k' == k) = false := by simp [h]
  induction l with
  | nil => simp [assocSet, List.lookup, hb]
  | cons p rest ih =>
    rcases p with ⟨k1, v1⟩
    unfold assocSet
    by_cases h1 : k1 = k
    · subst h1
      simp [List.lookup, hb]
    · by_cases h2 : (k' == k1) = true
      · simp [h1, List.lookup, h2]
      · have h2f : (k' == k1) = false := by simpa using h2
        simp [h1, List.lookup, h2f, ih]

theorem assocSet_fresh {β : Type} (l : List (String × β)) (k : String) (v : β)
    (h : l.lookup k = none) : assocSet l k v = l ++ [(k, v)] := by
  induction l with
  | nil => rfl
  | cons p rest ih =>
    rcases p with ⟨k1, v1⟩
    by_cases hb : (k == k1) = true
    · simp [List.lookup, hb] at h
    · have hbf : (k == k1) = false := by simpa using hb
      have hrest : rest.lookup k = none := by simpa [List.lookup, hbf] using h
      have hk1 : k1 ≠ k := by
        intro he
        subst he
        simp at hbf
      unfold assocSet
      simp [hk1, ih hrest]

theorem lookup_append_single_self {β : Type} (l : List (String × β)) (k : String) (v : β)
    (h : l.lookup k = none) : (l ++ [(k, v)]).lookup k = some v := by
  induction l with
  | nil => simp [List.lookup]
  | cons p rest ih =>
    rcases p with ⟨k1, v1⟩
    by_cases hb : (k == k1) = true
    · simp [List.lookup, hb] at h
    · have hbf : (k == k1) = false := by simpa using hb
      have hrest : rest.lookup k = none := by simpa [List.lookup, hbf] using h
      simpa [List.lookup, hbf] using ih hrest

theorem lookup_append_single_ne {β : Type} (l : List (String × β)) (k k' : String) (v : β)
    (h : k' ≠ k) : (l ++ [(k, v)]).lookup k' = l.lookup k' := by
  have hb : (k' == k) = false := by simp [h]
  induction l with
  | nil => simp [List.lookup, hb]
  | cons p rest ih =>
    rcases p with ⟨k1, v1⟩
    by_cases h1 : (k' == k1) = true
    · simp [List.lookup, h1]
    · have h1f : (k' == k1) = false := by simpa using h1
      simp [List.lookup, h1f, ih]

theorem lookup_none_keys {β : Type} (l : List (String × β)) (k : String)
    (h : l.lookup k = none) : ∀ pd ∈ l, pd.1 ≠ k := by
  induction l with
  | nil => simp
  | cons p rest ih =>
    rcases p with ⟨k1, v1⟩
    by_cases hb : (k == k1) = true
    · simp [List.lookup, hb] at h
    · have hbf : (k == k1) = false := by simpa using hb
      have hrest : rest.lookup k = none := by simpa [List.lookup, hbf] using h
      intro pd hpd
      rcases List.mem_cons.mp hpd with h1 | h1
      · subst h1
        intro he
        have hk : k1 = k := he
        rw [hk] at hbf
        simp at hbf
      · exact ih hrest pd h1

/-! ## saveConfigToFile case lemmas -/

theorem saveConfigToFile_openWFail (fs : FS) (path : String) (doc : JVal)
    (h : fs.openWFail.contains path = true) :
    saveConfigToFile fs path doc = (fs, false) := by
  have h' : path ∈ fs.openWFail := by simpa using h
  unfold saveConfigToFile
  simp [h']

theorem saveConfigToFile_writeFail (fs : FS) (path : String) (doc : JVal)
    (h1 : fs.openWFail.contains path = false) (h2 : fs.writeFail.contains path = true) :
    saveConfigToFile fs path doc =
      ({ fs with files := assocSet fs.files path (FileData.textData "") }, false) := by
  have h1' : path ∉ fs.openWFail := by simpa using h1
  have h2' : path ∈ fs.writeFail := by simpa using h2
  unfold saveConfigToFile
  simp [h1', h2']

theorem saveConfigToFile_ok (fs : FS) (path : String) (doc : JVal)
    (h1 : fs.openWFail.contains path = false) (h2 : fs.writeFail.contains path = false) :
    saveConfigToFile fs path doc =
      ({ fs with files := assocSet fs.files path (FileData.jsonData doc) }, true) := by
  have h1' : path ∉ fs.openWFail := by simpa using h1
  have h2' : path ∉ fs.writeFail := by simpa using h2
  unfold saveConfigToFile
  simp [h1', h2']

theorem saveConfigToFile_env (fs : FS) (path : String) (doc : JVal) :
    (saveConfigToFile fs path doc).1.openRFail = fs.openRFail ∧
    (saveConfigToFile fs path doc).1.openWFail = fs.openWFail ∧
    (saveConfigToFile fs path doc).1.writeFail = fs.writeFail := by
  unfold saveConfigToFile
  by_cases h1 : path ∈ fs.openWFail
  · simp [h1]
  · by_cases h2 : path ∈ fs.writeFail
    · simp [h1, h2]
    · simp [h1, h2]

theorem saveConfigToFile_lookup_ne (fs : FS) (path q : String) (doc : JVal)
    (h : q ≠ path) :
    fsLookup (saveConfigToFile fs path doc).1 q = fsLookup fs q := by
  unfold saveConfigToFile fsLookup
  by_cases h1 : path ∈ fs.openWFail
  · simp [h1]
  · by_cases h2 : path ∈ fs.writeFail
    · simp [h1, h2, assocSet_lookup_ne _ _ _ _ h]
    · simp [h1, h2, assocSet_lookup_ne _ _ _ _ h]

theorem createBackup_eq (cm : ConfigManager) (desc : String)
    (hinit : isInitialized cm = true) :
    createBackup cm desc =
      ({ cm with fs := (saveConfigToFile cm.fs (backupFullPath cm desc)
          (backupWrapper cm (cm.currentConfig.getD JVal.jNull))).1 },
       (saveConfigToFile cm.fs (backupFullPath cm desc)
          (backupWrapper cm (cm.currentConfig.getD JVal.jNull))).2) := by
  unfold createBackup createBackupInternal backupFullPath
  simp [hinit]

theorem saveConfiguration_eq (cm : ConfigManager) (path : String)
    (hinit : isInitialized cm = true)
    (hval : validateConfiguration cm.validationRules (cm.currentConfig.getD JVal.jNull)
      = CONFIG_VALID) :
    saveConfiguration cm path =
      ({ (createBackup cm "auto_backup_before_save").1 with
          fs := (saveConfigToFile (createBackup cm "auto_backup_before_save").1.fs path
            (cm.currentConfig.getD JVal.jNull)).1 },
       (saveConfigToFile (createBackup cm "auto_backup_before_save").1.fs path
          (cm.currentConfig.getD JVal.jNull)).2) := by
  unfold saveConfiguration
  simp [hinit, hval]

/-! ## C1: what a failed save leaves on disk -/

/-- C1 counterexample: a save whose write fails (after the truncating
open succeeded) returns false but destroys the prior on-disk file — the
path that held `oldDoc` afterwards holds a truncated empty file. -/
theorem saveConfiguration_truncation_counterexample :
    (saveConfiguration cmC1 "/config/config.json").2 = false ∧
    fsLookup cmC1.fs "/config/config.json" = some (FileData.jsonData oldDoc) ∧
    fsLookup (saveConfiguration cmC1 "/config/config.json").1.fs "/config/config.json"
      = some (FileData.textData "") :=
  ⟨rfl, rfl, rfl⟩

/-- C1 (amended): a failed save always returns false; the prior on-disk
file at the path is untouched whenever opening the file for write fails
(and trivially when initialisation or validation fails first), but when
the open succeeds and the write itself fails, the prior file has already
been truncated: an empty file is visible at the path. -/
theorem saveConfiguration_failure_spec (cm : ConfigManager) (path : String) :
    (cm.fs.openWFail.contains path = true →
      (saveConfiguration cm path).2 = false ∧
      fsLookup (saveConfiguration cm path).1.fs path = fsLookup cm.fs path) ∧
    (isInitialized cm = true →
      validateConfiguration cm.validationRules (cm.currentConfig.getD JVal.jNull)
        = CONFIG_VALID →
      cm.fs.openWFail.contains path = false →
      cm.fs.writeFail.contains path = true →
      (saveConfiguration cm path).2 = false ∧
      fsLookup (saveConfiguration cm path).1.fs path = some (FileData.textData "")) := by
  constructor
  · intro hw
    by_cases hinit : isInitialized cm = true
    · by_cases hval : validateConfiguration cm.validationRules
          (cm.currentConfig.getD JVal.jNull) = CONFIG_VALID
      · rw [saveConfiguration_eq cm path hinit hval, createBackup_eq cm _ hinit]
        have henv := saveConfigToFile_env cm.fs (backupFullPath cm "auto_backup_before_save")
          (backupWrapper cm (cm.currentConfig.getD JVal.jNull))
        have hw1 : (saveConfigToFile cm.fs (backupFullPath cm "auto_backup_before_save")
            (backupWrapper cm (cm.currentConfig.getD JVal.jNull))).1.openWFail.contains path
            = true := by rw [henv.2.1]; exact hw
        rw [saveConfigToFile_openWFail _ _ _ hw1]
        refine ⟨rfl, ?_⟩
        by_cases hbp : backupFullPath cm "auto_backup_before_save" = path
        · have : cm.fs.openWFail.contains (backupFullPath cm "auto_backup_before_save")
              = true := by rw [hbp]; exact hw
          rw [saveConfigToFile_openWFail _ _ _ this]
        · exact saveConfigToFile_lookup_ne _ _ _ _ (fun he => hbp he.symm)
      · unfold saveConfiguration
        simp [hinit, hval]
    · unfold saveConfiguration
      simp [hinit]
  · intro hinit hval hwo hwf
    rw [saveConfiguration_eq cm path hinit hval, createBackup_eq cm _ hinit]
    have henv := saveConfigToFile_env cm.fs (backupFullPath cm "auto_backup_before_save")
      (backupWrapper cm (cm.currentConfig.getD JVal.jNull))
    have hwo1 : (saveConfigToFile cm.fs (backupFullPath cm "auto_backup_before_save")
        (backupWrapper cm (cm.currentConfig.getD JVal.jNull))).1.openWFail.contains path
        = false := by rw [henv.2.1]; exact hwo
    have hwf1 : (saveConfigToFile cm.fs (backupFullPath cm "auto_backup_before_save")
        (backupWrapper cm (cm.currentConfig.getD JVal.jNull))).1.writeFail.contains path
        = true := by rw [henv.2.2]; exact hwf
    rw [saveConfigToFile_writeFail _ _ _ hwo1 hwf1]
    exact ⟨rfl, by unfold fsLookup; exact assocSet_lookup_self _ _ _⟩

theorem saveConfiguration_failure_spec_witness :
    (saveConfiguration cmC1 "/config/config.json").2 = false ∧
    fsLookup (saveConfiguration cmC1 "/config/config.json").1.fs "/config/config.json"
      = some (FileData.textData "") :=
  (saveConfiguration_failure_spec cmC1 "/config/config.json").2 rfl rfl rfl rfl

/-! ## C8: what listBackups returns -/

theorem mkBackupInfo_fields (fs : FS) (p name : String) (d : FileData) :
    (mkBackupInfo fs p name d).filename = name ∧
    (mkBackupInfo fs p name d).valid = true := by
  unfold mkBackupInfo
  cases h : loadConfigFromFile fs p with
  | none => simp [h]
  | some doc =>
    cases h2 : doc.getKey "backup_info" with
    | none => simp [h, h2]
    | some bi => simp [h, h2]

theorem backupRecords_filenames (fs : FS) (bp : String)
    (entries : List (String × FileData)) :
    (backupRecords fs bp entries).map ConfigBackupInfo.filename
      = entries.filterMap (listedName bp) := by
  induction entries with
  | nil => rfl
  | cons pd rest ih =>
    rcases pd with ⟨p, d⟩
    unfold backupRecords at ih ⊢
    rw [List.filterMap_cons, List.filterMap_cons]
    cases h : fileNameIn bp p with
    | none =>
      have e1 : backupEntry fs bp p d = none := by
        unfold backupEntry
        rw [h]
      have e2 : listedName bp (p, d) = none := by
        unfold listedName
        rw [h]
      simp only [e1, e2]
      simpa using ih
    | some name =>
      have e1 : backupEntry fs bp p d =
          if isListedBackupName name = true then some (mkBackupInfo fs p name d)
          else none := by
        unfold backupEntry
        rw [h]
      have e2 : listedName bp (p, d) =
          if isListedBackupName name = true then some name else none := by
        unfold listedName
        rw [h]
      by_cases hn : isListedBackupName name = true
      · simp only [e1, e2, hn, if_pos]
        simpa [(mkBackupInfo_fields fs p name d).1] using ih
      · simp only [e1, e2, hn, if_neg]
        simpa using ih

theorem backupEntry_valid (fs : FS) (bp p : String) (d : FileData)
    (r : ConfigBackupInfo) (h : backupEntry fs bp p d = some r) : r.valid = true := by
  unfold backupEntry at h
  cases hf : fileNameIn bp p with
  | none => rw [hf] at h; cases h
  | some name =>
    rw [hf] at h
    by_cases hn : isListedBackupName name = true
    · simp only [hn, if_pos] at h
      have := Option.some.inj h
      rw [← this]
      exact (mkBackupInfo_fields fs p name d).2
    · simp [hn] at h

/-- C8 counterexample: an unparseable `.json` file in the backup
directory is listed, but its record carries `valid = true`, not
`valid = false` — `listBackups` sets the flag unconditionally. -/
theorem listBackups_valid_counterexample :
    loadConfigFromFile cmC8.fs "/config/backups/bad.json" = none ∧
    (listBackups cmC8).map ConfigBackupInfo.filename = ["bad.json"] ∧
    (listBackups cmC8).map ConfigBackupInfo.valid = [true] :=
  ⟨rfl, rfl, rfl⟩

/-- C8 (amended): `listBackups` returns one record, in directory order,
for every non-hidden file whose name contains ".json"; records whose
file cannot be parsed (or whose metadata cannot be read) are still
included, but every returned record carries `valid = true` — the source
never sets the flag to false. -/
theorem listBackups_spec (cm : ConfigManager) :
    (listBackups cm).map ConfigBackupInfo.filename
      = cm.fs.files.filterMap (listedName cm.backupPath) ∧
    (∀ r ∈ listBackups cm, r.valid = true) := by
  refine ⟨backupRecords_filenames cm.fs cm.backupPath cm.fs.files, ?_⟩
  intro r hr
  rcases List.mem_filterMap.mp hr with ⟨pd, _, heq⟩
  exact backupEntry_valid cm.fs cm.backupPath pd.1 pd.2 r heq

theorem listBackups_spec_witness :
    ∃ r ∈ listBackups cmC8, r.valid = true := by
  have hmem : ({ filename := "bad.json", timestamp := "", version := "",
                 size := 8, valid := true } : ConfigBackupInfo) ∈ listBackups cmC8 := by
    decide
  exact ⟨_, hmem, (listBackups_spec cmC8).2 _ hmem⟩

/-! ## C5: backups and save -/

theorem leadsWith_append (p r : List Char) : leadsWith p (p ++ r) = true := by
  induction p with
  | nil => rfl
  | cons c cs ih => simp [leadsWith, ih]

theorem fileNameIn_append (dir n : String) : fileNameIn dir (dir ++ "/" ++ n) = some n := by
  unfold fileNameIn
  have hdata : (dir ++ "/" ++ n).data = (dir ++ "/").data ++ n.data := String.data_append _ _
  have hdrop : List.drop (dir ++ "/").data.length ((dir ++ "/").data ++ n.data) = n.data :=
    List.drop_left _ _
  rw [hdata, leadsWith_append, if_pos rfl, hdrop]

theorem loadConfigFromFile_assocSet_ne (fs : FS) (path q : String) (X : FileData)
    (h : q ≠ path) :
    loadConfigFromFile { fs with files := assocSet fs.files path X } q
      = loadConfigFromFile fs q := by
  unfold loadConfigFromFile fsLookup
  rw [show (assocSet fs.files path X).lookup q = fs.files.lookup q from
    assocSet_lookup_ne fs.files path q X h]

theorem loadConfigFromFile_append_ne (fs : FS) (k q : String) (X : FileData)
    (h : q ≠ k) :
    loadConfigFromFile { fs with files := fs.files ++ [(k, X)] } q
      = loadConfigFromFile fs q := by
  unfold loadConfigFromFile fsLookup
  rw [show (fs.files ++ [(k, X)]).lookup q = fs.files.lookup q from
    lookup_append_single_ne fs.files k q X h]

theorem mkBackupInfo_congr (F F' : FS) (p name : String) (d : FileData)
    (h : loadConfigFromFile F' p = loadConfigFromFile F p) :
    mkBackupInfo F' p name d = mkBackupInfo F p name d := by
  unfold mkBackupInfo
  rw [h]

theorem backupEntry_congr (F F' : FS) (bp p : String) (d : FileData)
    (h : fileNameIn bp p ≠ none → loadConfigFromFile F' p = loadConfigFromFile F p) :
    backupEntry F' bp p d = backupEntry F bp p d := by
  unfold backupEntry
  cases hf : fileNameIn bp p with
  | none => rfl
  | some name =>
    have hl := h (by rw [hf]; simp)
    show (if isListedBackupName name = true then some (mkBackupInfo F' p name d) else none)
      = (if isListedBackupName name = true then some (mkBackupInfo F p name d) else none)
    rw [mkBackupInfo_congr F F' p name d hl]

theorem backupRecords_congr (F F' : FS) (bp : String) (l : List (String × FileData))
    (h : ∀ pd ∈ l, fileNameIn bp pd.1 ≠ none →
      loadConfigFromFile F' pd.1 = loadConfigFromFile F pd.1) :
    backupRecords F' bp l = backupRecords F bp l := by
  induction l with
  | nil => rfl
  | cons pd rest ih =>
    rcases pd with ⟨p, d⟩
    unfold backupRecords at ih ⊢
    rw [List.filterMap_cons, List.filterMap_cons]
    rw [show backupEntry F' bp (p, d).1 (p, d).2 = backupEntry F bp (p, d).1 (p, d).2 from
      backupEntry_congr F F' bp p d (h (p, d) (List.mem_cons_self _ _))]
    rw [ih (fun x hx => h x (List.mem_cons_of_mem _ hx))]

theorem backupEntry_nonmatching (F : FS) (bp path : String) (d : FileData)
    (h : fileNameIn bp path = none) : backupEntry F bp path d = none := by
  unfold backupEntry
  rw [h]

theorem backupRecords_assocSet_nonmatching (F : FS) (bp path : String) (d : FileData)
    (l : List (String × FileData)) (h : fileNameIn bp path = none) :
    backupRecords F bp (assocSet l path d) = backupRecords F bp l := by
  induction l with
  | nil =>
    unfold backupRecords assocSet
    simp [List.filterMap_cons, backupEntry_nonmatching F bp path d h]
  | cons pd rest ih =>
    rcases pd with ⟨q, e⟩
    unfold assocSet
    by_cases hq : q = path
    · subst hq
      unfold backupRecords
      simp [List.filterMap_cons, backupEntry_nonmatching F bp q d h,
        backupEntry_nonmatching F bp q e h]
    · simp only [hq, if_neg, not_false_eq_true]
      unfold backupRecords at ih ⊢
      simp [List.filterMap_cons, ih]

theorem backupRecords_new_wrapper (F : FS) (bp name : String) (cm : ConfigManager)
    (doc : JVal) (hn : isListedBackupName name = true)
    (hload : loadConfigFromFile F (bp ++ "/" ++ name) = some (backupWrapper cm doc)) :
    backupRecords F bp [(bp ++ "/" ++ name, FileData.jsonData (backupWrapper cm doc))] =
      [{ filename := name, timestamp := toString cm.millisNow,
         version := getConfigVersion doc,
         size := fileDataSize (FileData.jsonData (backupWrapper cm doc)), valid := true }] := by
  have he : backupEntry F bp (bp ++ "/" ++ name) (FileData.jsonData (backupWrapper cm doc)) =
      some { filename := name, timestamp := toString cm.millisNow,
             version := getConfigVersion doc,
             size := fileDataSize (FileData.jsonData (backupWrapper cm doc)), valid := true } := by
    unfold backupEntry
    rw [fileNameIn_append]
    show (if isListedBackupName name = true then
        some (mkBackupInfo F (bp ++ "/" ++ name) name
          (FileData.jsonData (backupWrapper cm doc))) else none) = _
    rw [if_pos hn]
    unfold mkBackupInfo
    rw [hload]
    rfl
  unfold backupRecords
  simp [List.filterMap_cons, he]

theorem backupRecords_saveConfigToFile (fs : FS) (bp path : String) (doc2 : JVal)
    (hpath : fileNameIn bp path = none) :
    backupRecords (saveConfigToFile fs path doc2).1 bp
        ((saveConfigToFile fs path doc2).1).files
      = backupRecords fs bp fs.files := by
  have hcongr : ∀ X : FileData,
      backupRecords { fs with files := assocSet fs.files path X } bp fs.files
        = backupRecords fs bp fs.files := by
    intro X
    refine backupRecords_congr fs _ bp fs.files (fun pd _ hm => ?_)
    have hne : pd.1 ≠ path := by
      intro he
      rw [he] at hm
      exact hm hpath
    exact loadConfigFromFile_assocSet_ne fs path pd.1 X hne
  by_cases h1 : fs.openWFail.contains path = true
  · rw [saveConfigToFile_openWFail fs path doc2 h1]
  · have h1f : fs.openWFail.contains path = false := by simpa using h1
    by_cases h2 : fs.writeFail.contains path = true
    · rw [saveConfigToFile_writeFail fs path doc2 h1f h2]
      rw [show ({ fs with files := assocSet fs.files path (FileData.textData "") } : FS).files
          = assocSet fs.files path (FileData.textData "") from rfl]
      rw [backupRecords_assocSet_nonmatching _ bp path _ fs.files hpath]
      exact hcongr _
    · have h2f : fs.writeFail.contains path = false := by simpa using h2
      rw [saveConfigToFile_ok fs path doc2 h1f h2f]
      rw [show ({ fs with files := assocSet fs.files path (FileData.jsonData doc2) } : FS).files
          = assocSet fs.files path (FileData.jsonData doc2) from rfl]
      rw [backupRecords_assocSet_nonmatching _ bp path _ fs.files hpath]
      exact hcongr _

/-- C5 counterexample: when the automatic-backup write fails (here: its
open fails) but the configuration write succeeds, `saveConfiguration`
still returns true while `listBackups` has gained no record — a
successful save does not guarantee a backup. -/
theorem saveConfiguration_backup_counterexample :
    (saveConfiguration cmC5 "/config/config.json").2 = true ∧
    listBackups cmC5 = [] ∧
    listBackups (saveConfiguration cmC5 "/config/config.json").1 = [] :=
  ⟨rfl, rfl, rfl⟩

/-- C5 (amended): `saveConfiguration` attempts the automatic backup just
before writing, but ignores its result.  When the backup file is
writable, its generated name is fresh and listable, and the target path
does not itself lie in the backup directory, `listBackups` afterwards
has exactly one more record, whose `version` equals the version of the
in-memory document; when the backup write fails, a save can still
succeed with no new record. -/
theorem saveConfiguration_backup_spec (cm : ConfigManager) (path : String)
    (hinit : isInitialized cm = true)
    (hval : validateConfiguration cm.validationRules (cm.currentConfig.getD JVal.jNull)
      = CONFIG_VALID)
    (hname : isListedBackupName (backupFileName cm "auto_backup_before_save") = true)
    (hfresh : fsLookup cm.fs (backupFullPath cm "auto_backup_before_save") = none)
    (hro : cm.fs.openRFail.contains (backupFullPath cm "auto_backup_before_save") = false)
    (hwo : cm.fs.openWFail.contains (backupFullPath cm "auto_backup_before_save") = false)
    (hwf : cm.fs.writeFail.contains (backupFullPath cm "auto_backup_before_save") = false)
    (hcfg : fileNameIn cm.backupPath path = none) :
    (listBackups (saveConfiguration cm path).1).map ConfigBackupInfo.version =
      (listBackups cm).map ConfigBackupInfo.version ++
        [getConfigVersion (cm.currentConfig.getD JVal.jNull)] ∧
    (listBackups (saveConfiguration cm path).1).length = (listBackups cm).length + 1 := by
  have hsave1 := saveConfigToFile_ok cm.fs (backupFullPath cm "auto_backup_before_save")
    (backupWrapper cm (cm.currentConfig.getD JVal.jNull)) hwo hwf
  have hfiles1 := assocSet_fresh cm.fs.files (backupFullPath cm "auto_backup_before_save")
    (FileData.jsonData (backupWrapper cm (cm.currentConfig.getD JVal.jNull))) hfresh
  have hcb : createBackup cm "auto_backup_before_save"
      = ({ cm with fs := { cm.fs with files := cm.fs.files ++
          [(backupFullPath cm "auto_backup_before_save",
            FileData.jsonData (backupWrapper cm (cm.currentConfig.getD JVal.jNull)))] } },
         true) := by
    rw [createBackup_eq cm _ hinit, hsave1, hfiles1]
  have hres : (saveConfiguration cm path).1
      = { cm with fs := (saveConfigToFile
          { cm.fs with files := cm.fs.files ++
            [(backupFullPath cm "auto_backup_before_save",
              FileData.jsonData (backupWrapper cm (cm.currentConfig.getD JVal.jNull)))] }
          path (cm.currentConfig.getD JVal.jNull)).1 } := by
    rw [saveConfiguration_eq cm path hinit hval, hcb]
  have hlook := lookup_append_single_self cm.fs.files
    (backupFullPath cm "auto_backup_before_save")
    (FileData.jsonData (backupWrapper cm (cm.currentConfig.getD JVal.jNull))) hfresh
  have hload : loadConfigFromFile
      { cm.fs with files := cm.fs.files ++
        [(backupFullPath cm "auto_backup_before_save",
          FileData.jsonData (backupWrapper cm (cm.currentConfig.getD JVal.jNull)))] }
      (cm.backupPath ++ "/" ++ backupFileName cm "auto_backup_before_save")
      = some (backupWrapper cm (cm.currentConfig.getD JVal.jNull)) := by
    unfold loadConfigFromFile fsLookup
    rw [show ({ cm.fs with files := cm.fs.files ++
        [(backupFullPath cm "auto_backup_before_save",
          FileData.jsonData (backupWrapper cm (cm.currentConfig.getD JVal.jNull)))] } : FS).files
      = cm.fs.files ++ [(backupFullPath cm "auto_backup_before_save",
          FileData.jsonData (backupWrapper cm (cm.currentConfig.getD JVal.jNull)))] from rfl]
    rw [show (cm.backupPath ++ "/" ++ backupFileName cm "auto_backup_before_save")
      = backupFullPath cm "auto_backup_before_save" from rfl]
    rw [hlook]
    have hro' : backupFullPath cm "auto_backup_before_save" ∉ cm.fs.openRFail := by
      simpa using hro
    simp [hro']
  have hold := backupRecords_congr cm.fs
    { cm.fs with files := cm.fs.files ++
      [(backupFullPath cm "auto_backup_before_save",
        FileData.jsonData (backupWrapper cm (cm.currentConfig.getD JVal.jNull)))] }
    cm.backupPath cm.fs.files
    (fun pd hpd _ => loadConfigFromFile_append_ne cm.fs
      (backupFullPath cm "auto_backup_before_save") pd.1 _
      (lookup_none_keys cm.fs.files _ hfresh pd hpd))
  have hnew := backupRecords_new_wrapper
    { cm.fs with files := cm.fs.files ++
      [(backupFullPath cm "auto_backup_before_save",
        FileData.jsonData (backupWrapper cm (cm.currentConfig.getD JVal.jNull)))] }
    cm.backupPath (backupFileName cm "auto_backup_before_save") cm
    (cm.currentConfig.getD JVal.jNull) hname hload
  have hlist : listBackups (saveConfiguration cm path).1
      = backupRecords cm.fs cm.backupPath cm.fs.files ++
        [{ filename := backupFileName cm "auto_backup_before_save",
           timestamp := toString cm.millisNow,
           version := getConfigVersion (cm.currentConfig.getD JVal.jNull),
           size := fileDataSize (FileData.jsonData
             (backupWrapper cm (cm.currentConfig.getD JVal.jNull))), valid := true }] := by
    rw [hres]
    show backupRecords (saveConfigToFile _ path (cm.currentConfig.getD JVal.jNull)).1
        cm.backupPath ((saveConfigToFile _ path (cm.currentConfig.getD JVal.jNull)).1).files = _
    rw [backupRecords_saveConfigToFile _ cm.backupPath path _ hcfg]
    show backupRecords _ cm.backupPath (cm.fs.files ++
      [(cm.backupPath ++ "/" ++ backupFileName cm "auto_backup_before_save",
        FileData.jsonData (backupWrapper cm (cm.currentConfig.getD JVal.jNull)))]) = _
    unfold backupRecords
    rw [List.filterMap_append]
    unfold backupRecords at hold hnew
    rw [hold, hnew]
  constructor
  · rw [hlist, List.map_append]
    rfl
  · rw [hlist, List.length_append]
    rfl

theorem saveConfiguration_backup_spec_witness :
    (listBackups (saveConfiguration cmBase "/config/config.json").1).map
        ConfigBackupInfo.version = ["2.0.0"] ∧
    (listBackups (saveConfiguration cmBase "/config/config.json").1).length = 1 := by
  have h := saveConfiguration_backup_spec cmBase "/config/config.json"
    rfl rfl (by decide) rfl rfl rfl rfl rfl
  constructor
  · rw [h.1]
    rfl
  · rw [h.2]
    rfl
